import Mathlib

/-!
# Verification of the Reader CRUD service

Shallow embedding of the `api-tutorial` repository: a REST API exposing
create / list / update / delete over a single `Reader` entity.

* `Reader`, `ReaderFields` — the entity schema from `src/models/reader.js`
  (`name` and `email` are nullable strings; `id` is the integer primary key
  generated by the store).
* `Store` with `insert`, `fetchAll`, `fetchById`, `updateById`,
  `deleteById` — the storage contract the controllers call through the ORM.
* `ReadersController.create/list/update/deleteReader` — the four request
  handlers from `src/controllers/readers.js`, mapping storage results to
  HTTP status codes and JSON bodies.
-/

set_option autoImplicit false

/-- A persisted Reader record.  `id` is the system-generated integer primary
key.  `name` and `email` come from the schema `{ name: STRING, email: STRING }`
in `src/models/reader.js`: plain nullable string columns, so each is modelled
as `Option String` with `none` standing for SQL `NULL`. -/
structure Reader where
  id : Nat
  name : Option String
  email : Option String
deriving Repr, DecidableEq

/-- A request body for create / update: any subset of `{name, email}`.
`none` means the field is absent from the body; a field that is absent is
never written by an update and is persisted as `NULL` by a create. -/
structure ReaderFields where
  name : Option String
  email : Option String
deriving Repr, DecidableEq

/-- The backing store: the persisted records together with the
auto-increment counter for the next generated `id` (MySQL auto-increment
starts at 1). -/
structure Store where
  records : List Reader
  nextId : Nat
deriving Repr, DecidableEq

/-- The empty store, as produced by the schema bootstrap. -/
def emptyStore : Store := ⟨[], 1⟩

namespace Store

/-- Modelled from the spec: `insert(fields: {name, email}) -> Reader` —
creates a new record, assigns a unique `id`, returns the full persisted
record including the generated `id`.  Per the schema in
`src/models/reader.js`, `name` and `email` are nullable with no default, so
a field absent from `fields` is persisted as `NULL` (`none`). -/
def insert (s : Store) (f : ReaderFields) : Reader × Store :=
  let r : Reader := ⟨s.nextId, f.name, f.email⟩
  (r, ⟨s.records ++ [r], s.nextId + 1⟩)

/-- Modelled from the spec: `fetchAll() -> sequence of Reader` — returns
every persisted record, in insertion order. -/
def fetchAll (s : Store) : List Reader := s.records

/-- Modelled from the spec: `fetchById(id) -> Reader or absent` — point
lookup returning an explicit not-found signal. -/
def fetchById (s : Store) (id : Nat) : Option Reader :=
  s.records.find? (fun r => r.id == id)

/-- Apply a partial update to one record: only the fields present in the
body are written, omitted fields are left untouched, and `id` is never
touched. -/
def applyFields (f : ReaderFields) (r : Reader) : Reader :=
  { r with
    name := match f.name with | some v => some v | none => r.name
    email := match f.email with | some v => some v | none => r.email }

/-- Modelled from the spec: `updateById(id, partialFields) -> count of rows
affected` — applies only the fields present in `partialFields` to every
record matching `id`, and returns how many rows matched (`0` when no record
with that `id` exists). -/
def updateById (s : Store) (id : Nat) (f : ReaderFields) : Nat × Store :=
  ((s.records.filter (fun r => r.id == id)).length,
   ⟨s.records.map (fun r => if r.id == id then applyFields f r else r),
    s.nextId⟩)

/-- Modelled from the spec: `deleteById(id) -> count of rows affected` —
removes every record matching `id` and returns how many rows were removed
(`0` if absent). -/
def deleteById (s : Store) (id : Nat) : Nat × Store :=
  ((s.records.filter (fun r => r.id == id)).length,
   ⟨s.records.filter (fun r => r.id != id), s.nextId⟩)

/-- Store well-formedness: every persisted `id` is below the auto-increment
counter, and `id` values are pairwise distinct.  Both hold of every store
reachable from `emptyStore` through the operations above. -/
def WF (s : Store) : Prop :=
  (∀ r ∈ s.records, r.id < s.nextId) ∧ (s.records.map Reader.id).Nodup

instance : DecidablePred WF := fun s => by
  unfold WF; infer_instance

end Store

/-- A JSON value, as handed to `res.json(...)` by the handlers. -/
inductive Json where
  | null : Json
  | str : String → Json
  | num : Nat → Json
  | arr : List Json → Json
  | obj : List (String × Json) → Json

/-- The JSON serialization of a persisted Reader, with `none` rendered as
JSON `null`. -/
def Reader.toJson (r : Reader) : Json :=
  Json.obj [("id", Json.num r.id),
            ("name", (r.name.map Json.str).getD Json.null),
            ("email", (r.email.map Json.str).getD Json.null)]

/-- An HTTP response as produced by a handler: the status code and the JSON
payload passed to `res.json`, or `none` when no body is sent. -/
structure Response where
  status : Nat
  body : Option Json

/-- The fixed not-found body `{error: "The reader does not exist."}`. -/
def notFoundBody : Json :=
  Json.obj [("error", Json.str "The reader does not exist.")]

namespace ReadersController

/-- Handler `create` from `src/controllers/readers.js`:
`Reader.create(req.body).then((reader) => res.status(201).json(reader))`. -/
def create (s : Store) (body : ReaderFields) : Response × Store :=
  let (reader, s') := s.insert body
  (⟨201, some reader.toJson⟩, s')

/-- Handler `list` from `src/controllers/readers.js`:
`Reader.findAll().then((readers) => res.status(200).json(readers))`. -/
def list (s : Store) : Response × Store :=
  (⟨200, some (Json.arr (s.fetchAll.map Reader.toJson))⟩, s)

/-- Handler `update` from `src/controllers/readers.js`: runs
`Reader.update(req.body, { where: { id } })`, answers 404 with the fixed
error body when the affected-row count is 0, else 200 with the one-element
array `[numOfRowsUpdated]`. -/
def update (s : Store) (id : Nat) (body : ReaderFields) : Response × Store :=
  let (numOfRowsUpdated, s') := s.updateById id body
  if numOfRowsUpdated = 0 then
    (⟨404, some notFoundBody⟩, s')
  else
    (⟨200, some (Json.arr [Json.num numOfRowsUpdated])⟩, s')

/-- Handler `deleteReader` from `src/controllers/readers.js`: runs
`Reader.destroy({ where: { id } })`, answers 404 with the fixed error body
when the affected-row count is 0, else status 204 with the bare count
passed to `res.json`. -/
def deleteReader (s : Store) (id : Nat) : Response × Store :=
  let (numOfRowsDeleted, s') := s.deleteById id
  if numOfRowsDeleted = 0 then
    (⟨404, some notFoundBody⟩, s')
  else
    (⟨204, some (Json.num numOfRowsDeleted)⟩, s')

end ReadersController

/-- Inserting a whole batch of request bodies, one create after another. -/
def insertAll (s : Store) (fs : List ReaderFields) : Store :=
  fs.foldl (fun t f => (t.insert f).2) s

/-- The records produced by a batch of inserts whose first generated id is
`n`: ids are consecutive and each body's fields are persisted verbatim. -/
def mkReaders (n : Nat) (fs : List ReaderFields) : List Reader :=
  match fs with
  | [] => []
  | f :: fs => ⟨n, f.name, f.email⟩ :: mkReaders (n + 1) fs

/-- Sample record used by the concrete witnesses (from the repository's
integration tests). -/
def miaReader : Reader := ⟨1, some "Mia Corvere", some "mia@redchurch.com"⟩

/-- A second sample record used by the concrete witnesses. -/
def bilboReader : Reader := ⟨2, some "Bilbo Baggins", some "bilbo@bagend.com"⟩

/-- A sample store holding two records, with the auto-increment counter
past both ids. -/
def sampleStore : Store := ⟨[miaReader, bilboReader], 3⟩

namespace ReadersController

theorem create_def (s : Store) (f : ReaderFields) :
    create s f =
      (⟨201, some (Reader.toJson ⟨s.nextId, f.name, f.email⟩)⟩,
       ⟨s.records ++ [⟨s.nextId, f.name, f.email⟩], s.nextId + 1⟩) := rfl

theorem update_def (s : Store) (id : Nat) (f : ReaderFields) :
    update s id f =
      if (s.updateById id f).1 = 0 then
        (⟨404, some notFoundBody⟩, (s.updateById id f).2)
      else
        (⟨200, some (Json.arr [Json.num (s.updateById id f).1])⟩,
         (s.updateById id f).2) := rfl

theorem deleteReader_def (s : Store) (id : Nat) :
    deleteReader s id =
      if (s.deleteById id).1 = 0 then
        (⟨404, some notFoundBody⟩, (s.deleteById id).2)
      else
        (⟨204, some (Json.num (s.deleteById id).1)⟩, (s.deleteById id).2) := rfl

/-- The store an update request leaves behind is exactly the one produced
by `updateById`, on both branches. -/
theorem update_store (s : Store) (id : Nat) (f : ReaderFields) :
    (update s id f).2 = (s.updateById id f).2 := by
  rw [update_def]; split <;> rfl

/-- The store a delete request leaves behind is exactly the one produced
by `deleteById`, on both branches. -/
theorem deleteReader_store (s : Store) (id : Nat) :
    (deleteReader s id).2 = (s.deleteById id).2 := by
  rw [deleteReader_def]; split <;> rfl

/-- The update handler's status is a function of the affected-row count
alone: two requests whose counts agree get the same status. -/
theorem update_status_eq_of_count_eq (s t : Store) (i j : Nat)
    (f g : ReaderFields) (h : (s.updateById i f).1 = (t.updateById j g).1) :
    (update s i f).1.status = (update t j g).1.status := by
  rw [update_def, update_def, ← h]
  split <;> rfl

/-- The delete handler's status is a function of the affected-row count
alone. -/
theorem delete_status_eq_of_count_eq (s t : Store) (i j : Nat)
    (h : (s.deleteById i).1 = (t.deleteById j).1) :
    (deleteReader s i).1.status = (deleteReader t j).1.status := by
  rw [deleteReader_def, deleteReader_def, ← h]
  split <;> rfl

end ReadersController

namespace Store

theorem fetchById_eq_none_iff (s : Store) (id : Nat) :
    s.fetchById id = none ↔ ∀ r ∈ s.records, r.id ≠ id := by
  simp [fetchById, List.find?_eq_none]

theorem fetchById_some_mem {s : Store} {id : Nat} {r : Reader}
    (h : s.fetchById id = some r) : r ∈ s.records ∧ r.id = id := by
  unfold fetchById at h
  exact ⟨List.mem_of_find?_eq_some h, by simpa using List.find?_some h⟩

/-- A record that matches keeps the affected-row count away from zero. -/
theorem count_ne_zero_of_mem {l : List Reader} {id : Nat} {r : Reader}
    (hr : r ∈ l) (hid : r.id = id) :
    (l.filter (fun x => x.id == id)).length ≠ 0 := by
  have hmem : r ∈ l.filter (fun x => x.id == id) :=
    List.mem_filter.mpr ⟨hr, by simp [hid]⟩
  intro h0
  rw [List.length_eq_zero.mp h0] at hmem
  cases hmem

/-- When no record matches, the row-wise update touches nothing. -/
theorem map_keep_of_absent (l : List Reader) (id : Nat) (f : ReaderFields)
    (h : ∀ r ∈ l, r.id ≠ id) :
    l.map (fun r => if r.id == id then applyFields f r else r) = l := by
  induction l with
  | nil => rfl
  | cons a as ih =>
    have ha : a.id ≠ id := h a (List.mem_cons_self a as)
    rw [List.map_cons, if_neg (show ¬((a.id == id) = true) by simpa using ha),
      ih (fun r hr => h r (List.mem_cons_of_mem a hr))]

/-- `updateById` on an absent id reports zero affected rows and returns the
store unchanged. -/
theorem updateById_of_absent (s : Store) (id : Nat) (f : ReaderFields)
    (h : ∀ r ∈ s.records, r.id ≠ id) : s.updateById id f = (0, s) := by
  unfold updateById
  simp only [Prod.mk.injEq]
  constructor
  · rw [List.length_eq_zero]
    exact List.filter_eq_nil_iff.mpr (by simpa using h)
  · rw [map_keep_of_absent s.records id f h]

end Store

/-- **C1**: for update and delete requests the handler responds 404 with
body `{error: "The reader does not exist."}` exactly when the affected-row
count from the mutating storage operation is 0, and responds 200 (update)
resp. 204 (delete) whenever the count is nonzero; moreover the status is a
function of that count alone — no separate existence read feeds it. -/
theorem notFound_iff_zero_affected_rows (s : Store) (id : Nat)
    (f : ReaderFields) :
    (((ReadersController.update s id f).1.status = 404 ∧
        (ReadersController.update s id f).1.body = some notFoundBody) ↔
      (s.updateById id f).1 = 0) ∧
    ((s.updateById id f).1 ≠ 0 →
      (ReadersController.update s id f).1.status = 200) ∧
    (((ReadersController.deleteReader s id).1.status = 404 ∧
        (ReadersController.deleteReader s id).1.body = some notFoundBody) ↔
      (s.deleteById id).1 = 0) ∧
    ((s.deleteById id).1 ≠ 0 →
      (ReadersController.deleteReader s id).1.status = 204) ∧
    (∀ (t : Store) (j : Nat) (g : ReaderFields),
      (s.updateById id f).1 = (t.updateById j g).1 →
        (ReadersController.update s id f).1.status =
          (ReadersController.update t j g).1.status) ∧
    (∀ (t : Store) (j : Nat),
      (s.deleteById id).1 = (t.deleteById j).1 →
        (ReadersController.deleteReader s id).1.status =
          (ReadersController.deleteReader t j).1.status) := by
  refine ⟨?_, ?_, ?_, ?_,
    fun t j g h => ReadersController.update_status_eq_of_count_eq s t id j f g h,
    fun t j h => ReadersController.delete_status_eq_of_count_eq s t id j h⟩
  · rw [ReadersController.update_def]
    by_cases hu : (s.updateById id f).1 = 0 <;> simp [hu]
  · intro h
    rw [ReadersController.update_def, if_neg h]
  · rw [ReadersController.deleteReader_def]
    by_cases hd : (s.deleteById id).1 = 0 <;> simp [hd]
  · intro h
    rw [ReadersController.deleteReader_def, if_neg h]

/-- Witness for C1: on the sample store, updating the missing id 345 gives
404 with the fixed error body, and deleting the present id 1 gives 204. -/
theorem notFound_iff_zero_affected_rows_witness :
    ((ReadersController.update sampleStore 345 ⟨some "Harry Potter", none⟩).1.status = 404 ∧
      (ReadersController.update sampleStore 345
          ⟨some "Harry Potter", none⟩).1.body = some notFoundBody) ∧
    (ReadersController.deleteReader sampleStore 1).1.status = 204 :=
  ⟨(notFound_iff_zero_affected_rows sampleStore 345
      ⟨some "Harry Potter", none⟩).1.mpr (by decide),
   (notFound_iff_zero_affected_rows sampleStore 1 ⟨none, none⟩).2.2.2.1 (by decide)⟩

/-- **C10**: whenever the affected-row count of an update is nonzero, the
200 response body is exactly the one-element array `[count]` — a singleton
JSON array, not a bare number. -/
theorem update_success_body_is_singleton_count (s : Store) (id : Nat)
    (f : ReaderFields) (h : (s.updateById id f).1 ≠ 0) :
    (ReadersController.update s id f).1.status = 200 ∧
    (ReadersController.update s id f).1.body =
      some (Json.arr [Json.num (s.updateById id f).1]) := by
  rw [ReadersController.update_def, if_neg h]
  exact ⟨rfl, rfl⟩

/-- Witness for C10: updating the present id 1 in the sample store answers
200 with body `[1]`. -/
theorem update_success_body_is_singleton_count_witness :
    (ReadersController.update sampleStore 1 ⟨some "Lyra Silvertongue", none⟩).1.status = 200 ∧
    (ReadersController.update sampleStore 1
        ⟨some "Lyra Silvertongue", none⟩).1.body = some (Json.arr [Json.num 1]) :=
  update_success_body_is_singleton_count sampleStore 1
    ⟨some "Lyra Silvertongue", none⟩ (by decide)

/-- Counterexample to **C2** as stated: deleting the existing id 1 from the
sample store answers with status 204 but the body handed to `res.json` is
the affected-row count `1`, not an empty body. -/
theorem delete_nonempty_body_counterexample :
    sampleStore.fetchById 1 = some miaReader ∧
    (ReadersController.deleteReader sampleStore 1).1.status = 204 ∧
    (ReadersController.deleteReader sampleStore 1).1.body = some (Json.num 1) ∧
    (ReadersController.deleteReader sampleStore 1).1.body ≠ none :=
  ⟨by decide, rfl, rfl, Option.some_ne_none (Json.num 1)⟩

/-- **C2** (amended): a delete request on an existing id responds with
status 204, but its body is the (nonzero) affected-row count passed to the
JSON serializer rather than an empty body. -/
theorem delete_existing_204_with_count_body (s : Store) (id : Nat)
    (r : Reader) (h : s.fetchById id = some r) :
    (ReadersController.deleteReader s id).1.status = 204 ∧
    (ReadersController.deleteReader s id).1.body =
      some (Json.num (s.deleteById id).1) ∧
    (s.deleteById id).1 ≠ 0 := by
  obtain ⟨hmem, hid⟩ := Store.fetchById_some_mem h
  have hc : (s.deleteById id).1 ≠ 0 := Store.count_ne_zero_of_mem hmem hid
  rw [ReadersController.deleteReader_def, if_neg hc]
  exact ⟨rfl, rfl, hc⟩

/-- Witness for the amended C2: deleting the existing id 2 from the sample
store gives 204 with the count as body. -/
theorem delete_existing_204_with_count_body_witness :
    (ReadersController.deleteReader sampleStore 2).1.status = 204 ∧
    (ReadersController.deleteReader sampleStore 2).1.body =
      some (Json.num (sampleStore.deleteById 2).1) ∧
    (sampleStore.deleteById 2).1 ≠ 0 :=
  delete_existing_204_with_count_body sampleStore 2 bilboReader (by decide)

/-- **C3**: a create request with body `{name, email}` responds 201, its
body is the full persisted record — the generated integer id together with
the submitted name and email — and that record is persisted in the store. -/
theorem create_responds_201_with_persisted_record (s : Store)
    (nm em : String) :
    (ReadersController.create s ⟨some nm, some em⟩).1.status = 201 ∧
    (ReadersController.create s ⟨some nm, some em⟩).1.body =
      some (Json.obj [("id", Json.num s.nextId),
                      ("name", Json.str nm), ("email", Json.str em)]) ∧
    (⟨s.nextId, some nm, some em⟩ : Reader) ∈
      (ReadersController.create s ⟨some nm, some em⟩).2.records := by
  refine ⟨rfl, rfl, ?_⟩
  rw [ReadersController.create_def]
  exact List.mem_append_right _ (List.mem_singleton.mpr rfl)

/-- **C9**: a create request whose body omits `name` and/or `email`
(including the empty body) still succeeds with 201, and the persisted
record carries `NULL` (`none`, serialized as JSON `null`) for each omitted
field — the schema puts no non-null constraint on either column and the
handler forwards the body to storage unvalidated. -/
theorem create_missing_fields_persists_null (s : Store) (nm em : String) :
    ((ReadersController.create s ⟨none, none⟩).1.status = 201 ∧
      (⟨s.nextId, none, none⟩ : Reader) ∈
        (ReadersController.create s ⟨none, none⟩).2.records ∧
      (ReadersController.create s ⟨none, none⟩).1.body =
        some (Json.obj [("id", Json.num s.nextId),
                        ("name", Json.null), ("email", Json.null)])) ∧
    ((ReadersController.create s ⟨some nm, none⟩).1.status = 201 ∧
      (⟨s.nextId, some nm, none⟩ : Reader) ∈
        (ReadersController.create s ⟨some nm, none⟩).2.records ∧
      (ReadersController.create s ⟨some nm, none⟩).1.body =
        some (Json.obj [("id", Json.num s.nextId),
                        ("name", Json.str nm), ("email", Json.null)])) ∧
    ((ReadersController.create s ⟨none, some em⟩).1.status = 201 ∧
      (⟨s.nextId, none, some em⟩ : Reader) ∈
        (ReadersController.create s ⟨none, some em⟩).2.records ∧
      (ReadersController.create s ⟨none, some em⟩).1.body =
        some (Json.obj [("id", Json.num s.nextId),
                        ("name", Json.null), ("email", Json.str em)])) := by
  refine ⟨⟨rfl, ?_, rfl⟩, ⟨rfl, ?_, rfl⟩, ⟨rfl, ?_, rfl⟩⟩ <;>
  · rw [ReadersController.create_def]
    exact List.mem_append_right _ (List.mem_singleton.mpr rfl)

/-- **C7**: an update request on an id absent from the store answers 404
with the fixed error body and leaves the store completely unchanged. -/
theorem update_missing_id_404_no_mutation (s : Store) (id : Nat)
    (f : ReaderFields) (h : s.fetchById id = none) :
    (ReadersController.update s id f).1.status = 404 ∧
    (ReadersController.update s id f).1.body = some notFoundBody ∧
    (ReadersController.update s id f).2 = s := by
  have habs : ∀ r ∈ s.records, r.id ≠ id := (Store.fetchById_eq_none_iff s id).mp h
  have hup : s.updateById id f = (0, s) := Store.updateById_of_absent s id f habs
  rw [ReadersController.update_def, hup]
  exact ⟨rfl, rfl, rfl⟩

/-- Witness for C7: updating the missing id 345 in the sample store gives
404, the fixed error body, and an unchanged store. -/
theorem update_missing_id_404_no_mutation_witness :
    (ReadersController.update sampleStore 345 ⟨some "Harry Potter", none⟩).1.status = 404 ∧
    (ReadersController.update sampleStore 345
        ⟨some "Harry Potter", none⟩).1.body = some notFoundBody ∧
    (ReadersController.update sampleStore 345
        ⟨some "Harry Potter", none⟩).2 = sampleStore :=
  update_missing_id_404_no_mutation sampleStore 345
    ⟨some "Harry Potter", none⟩ (by decide)

/-- Appending one element to a list on which the predicate always fails
makes `find?` look only at that element. -/
theorem find?_append_singleton {α : Type} (l : List α) (p : α → Bool) (x : α)
    (h : ∀ a ∈ l, p a = false) :
    (l ++ [x]).find? p = if p x then some x else none := by
  induction l with
  | nil =>
    simp only [List.nil_append, List.find?]
    split <;> simp_all [List.find?]
  | cons a as ih =>
    rw [List.cons_append,
      List.find?_cons_of_neg _ (by simp [h a (List.mem_cons_self a as)])]
    exact ih (fun b hb => h b (List.mem_cons_of_mem a hb))

/-- **C4**: on a well-formed store, a create followed by a point lookup on
the id returned by create yields a record with exactly the submitted name
and email. -/
theorem create_fetchById_roundtrip (s : Store) (nm em : String)
    (hwf : s.WF) :
    (ReadersController.create s ⟨some nm, some em⟩).2.fetchById
        ((s.insert ⟨some nm, some em⟩).1.id) =
      some ⟨s.nextId, some nm, some em⟩ := by
  have hall : ∀ r ∈ s.records, (r.id == s.nextId) = false := by
    intro r hr
    simpa using Nat.ne_of_lt (hwf.1 r hr)
  show (s.records ++ [(⟨s.nextId, some nm, some em⟩ : Reader)]).find?
      (fun r => r.id == s.nextId) = some ⟨s.nextId, some nm, some em⟩
  rw [find?_append_singleton _ _ _ hall]
  simp

/-- Witness for C4: creating Mia in the empty store and looking the new id
up returns her record. -/
theorem create_fetchById_roundtrip_witness :
    (ReadersController.create emptyStore
        ⟨some "Mia Corvere", some "mia@redchurch.com"⟩).2.fetchById
        ((emptyStore.insert
          ⟨some "Mia Corvere", some "mia@redchurch.com"⟩).1.id) =
      some ⟨1, some "Mia Corvere", some "mia@redchurch.com"⟩ :=
  create_fetchById_roundtrip emptyStore "Mia Corvere" "mia@redchurch.com"
    (by decide)

/-- Row-wise partial update commutes with `find?` on the same id. -/
theorem find?_map_applyFields (l : List Reader) (id : Nat)
    (f : ReaderFields) :
    (l.map (fun r => if r.id == id then Store.applyFields f r else r)).find?
        (fun r => r.id == id) =
      (l.find? (fun r => r.id == id)).map (Store.applyFields f) := by
  induction l with
  | nil => rfl
  | cons a as ih =>
    by_cases h : a.id = id
    · have hb : (a.id == id) = true := by simpa using h
      have hb2 : ((Store.applyFields f a).id == id) = true := hb
      rw [List.map_cons, if_pos hb]
      simp only [List.find?_cons, hb, hb2]
      rfl
    · have hb : (a.id == id) = false := by simpa using h
      rw [List.map_cons, if_neg (by simp [hb])]
      simp only [List.find?_cons, hb]
      exact ih

/-- A point lookup after `updateById` on the same id sees exactly the
partial update applied to what the lookup saw before. -/
theorem Store.fetchById_updateById (s : Store) (id : Nat)
    (f : ReaderFields) :
    (s.updateById id f).2.fetchById id =
      (s.fetchById id).map (Store.applyFields f) :=
  find?_map_applyFields s.records id f

/-- **C5**: updating an existing record with a body containing only `name`
leaves `email` and `id` unchanged, and a body containing only `email`
leaves `name` and `id` unchanged — omitted fields are never modified. -/
theorem partial_update_leaves_other_field (s : Store) (id : Nat)
    (r : Reader) (nm em : String) (h : s.fetchById id = some r) :
    (ReadersController.update s id ⟨some nm, none⟩).2.fetchById id =
      some ⟨r.id, some nm, r.email⟩ ∧
    (ReadersController.update s id ⟨none, some em⟩).2.fetchById id =
      some ⟨r.id, r.name, some em⟩ := by
  constructor <;>
  · rw [ReadersController.update_store, Store.fetchById_updateById, h]
    rfl

/-- Witness for C5: renaming Mia leaves her email untouched, and changing
her email leaves her name untouched. -/
theorem partial_update_leaves_other_field_witness :
    (ReadersController.update sampleStore 1
        ⟨some "Lyra Silvertongue", none⟩).2.fetchById 1 =
      some ⟨1, some "Lyra Silvertongue", some "mia@redchurch.com"⟩ ∧
    (ReadersController.update sampleStore 1
        ⟨none, some "lyra@jordancollege.ac.uk"⟩).2.fetchById 1 =
      some ⟨1, some "Mia Corvere", some "lyra@jordancollege.ac.uk"⟩ :=
  partial_update_leaves_other_field sampleStore 1 miaReader
    "Lyra Silvertongue" "lyra@jordancollege.ac.uk" (by decide)

/-- A batch of inserts appends `mkReaders`-shaped records and advances the
auto-increment counter by the batch size. -/
theorem insertAll_records (fs : List ReaderFields) :
    ∀ s : Store,
      (insertAll s fs).records = s.records ++ mkReaders s.nextId fs ∧
      (insertAll s fs).nextId = s.nextId + fs.length := by
  induction fs with
  | nil => intro s; simp [insertAll, mkReaders]
  | cons f fs ih =>
    intro s
    have e : insertAll s (f :: fs) = insertAll (s.insert f).2 fs := rfl
    have h := ih (s.insert f).2
    constructor
    · rw [e, h.1]
      show (s.records ++ [⟨s.nextId, f.name, f.email⟩]) ++
          mkReaders (s.nextId + 1) fs = s.records ++ mkReaders s.nextId (f :: fs)
      rw [List.append_assoc]
      rfl
    · rw [e, h.2]
      show s.nextId + 1 + fs.length = s.nextId + (f :: fs).length
      rw [List.length_cons]
      omega

theorem mkReaders_length (fs : List ReaderFields) :
    ∀ n : Nat, (mkReaders n fs).length = fs.length := by
  induction fs with
  | nil => intro n; rfl
  | cons f fs ih => intro n; simp [mkReaders, ih]

/-- Membership in a batch of generated records, indexed by position in the
batch. -/
theorem mem_mkReaders (fs : List ReaderFields) :
    ∀ (n : Nat) (r : Reader),
      r ∈ mkReaders n fs ↔
        ∃ i, ∃ h : i < fs.length,
          r = ⟨n + i, (fs.get ⟨i, h⟩).name, (fs.get ⟨i, h⟩).email⟩ := by
  induction fs with
  | nil => intro n r; simp [mkReaders]
  | cons f fs ih =>
    intro n r
    rw [show mkReaders n (f :: fs) =
        (⟨n, f.name, f.email⟩ : Reader) :: mkReaders (n + 1) fs from rfl,
      List.mem_cons, ih (n + 1) r]
    constructor
    · rintro (rfl | ⟨i, h, rfl⟩)
      · exact ⟨0, Nat.succ_pos _, by simp⟩
      · refine ⟨i + 1, by simpa using h, ?_⟩
        show (⟨n + 1 + i, _, _⟩ : Reader) = ⟨n + (i + 1), _, _⟩
        rw [Reader.mk.injEq]
        exact ⟨by omega, rfl, rfl⟩
    · rintro ⟨i, h, rfl⟩
      cases i with
      | zero => left; simp
      | succ i =>
        right
        refine ⟨i, by simpa using h, ?_⟩
        show (⟨n + (i + 1), _, _⟩ : Reader) = ⟨n + 1 + i, _, _⟩
        rw [Reader.mk.injEq]
        exact ⟨by omega, rfl, rfl⟩

/-- **C6**: after inserting a batch of N bodies into the fresh store, a
list request answers 200 with exactly the N stored records serialized, the
store holds exactly N records, and the stored records and the batch match
one another positionally by generated id, name and email. -/
theorem list_after_inserts_complete (fs : List ReaderFields) :
    (ReadersController.list (insertAll emptyStore fs)).1.status = 200 ∧
    (ReadersController.list (insertAll emptyStore fs)).1.body =
      some (Json.arr ((insertAll emptyStore fs).records.map Reader.toJson)) ∧
    (insertAll emptyStore fs).records.length = fs.length ∧
    (∀ i, ∀ h : i < fs.length,
      ∃ r ∈ (insertAll emptyStore fs).records,
        r.id = 1 + i ∧ r.name = (fs.get ⟨i, h⟩).name ∧
        r.email = (fs.get ⟨i, h⟩).email) ∧
    (∀ r ∈ (insertAll emptyStore fs).records,
      ∃ i, ∃ h : i < fs.length,
        r.id = 1 + i ∧ r.name = (fs.get ⟨i, h⟩).name ∧
        r.email = (fs.get ⟨i, h⟩).email) := by
  have hrec : (insertAll emptyStore fs).records = mkReaders 1 fs := by
    have h := (insertAll_records fs emptyStore).1
    simpa [emptyStore] using h
  refine ⟨rfl, rfl, ?_, ?_, ?_⟩
  · rw [hrec, mkReaders_length]
  · intro i h
    refine ⟨⟨1 + i, (fs.get ⟨i, h⟩).name, (fs.get ⟨i, h⟩).email⟩, ?_, rfl, rfl, rfl⟩
    rw [hrec, mem_mkReaders]
    exact ⟨i, h, rfl⟩
  · intro r hr
    rw [hrec, mem_mkReaders] at hr
    obtain ⟨i, h, rfl⟩ := hr
    exact ⟨i, h, rfl, rfl, rfl⟩

/-- Witness for C6: inserting two concrete bodies into the fresh store,
list answers 200, the store holds two records, and the first insert is
present with id 1. -/
theorem list_after_inserts_complete_witness :
    (ReadersController.list (insertAll emptyStore
        [⟨some "Mia Corvere", some "mia@redchurch.com"⟩,
         ⟨some "Bilbo Baggins", some "bilbo@bagend.com"⟩])).1.status = 200 ∧
    (insertAll emptyStore
        [⟨some "Mia Corvere", some "mia@redchurch.com"⟩,
         ⟨some "Bilbo Baggins", some "bilbo@bagend.com"⟩]).records.length = 2 ∧
    (∃ r ∈ (insertAll emptyStore
        [⟨some "Mia Corvere", some "mia@redchurch.com"⟩,
         ⟨some "Bilbo Baggins", some "bilbo@bagend.com"⟩]).records,
      r.id = 1 + 0 ∧ r.name = some "Mia Corvere" ∧
      r.email = some "mia@redchurch.com") :=
  ⟨(list_after_inserts_complete
      [⟨some "Mia Corvere", some "mia@redchurch.com"⟩,
       ⟨some "Bilbo Baggins", some "bilbo@bagend.com"⟩]).1,
   (list_after_inserts_complete
      [⟨some "Mia Corvere", some "mia@redchurch.com"⟩,
       ⟨some "Bilbo Baggins", some "bilbo@bagend.com"⟩]).2.2.1,
   (list_after_inserts_complete
      [⟨some "Mia Corvere", some "mia@redchurch.com"⟩,
       ⟨some "Bilbo Baggins", some "bilbo@bagend.com"⟩]).2.2.2.1 0 (by decide)⟩

/-- With pairwise-distinct ids, the rows matching the id of a present
record are exactly that one record. -/
theorem filter_eq_singleton_of_nodup (l : List Reader) (id : Nat)
    (r : Reader) (hn : (l.map Reader.id).Nodup) (hr : r ∈ l)
    (hid : r.id = id) : l.filter (fun x => x.id == id) = [r] := by
  induction l with
  | nil => cases hr
  | cons a as ih =>
    rw [List.map_cons, List.nodup_cons] at hn
    rcases List.mem_cons.mp hr with heq | hmem
    · subst heq
      rw [List.filter_cons_of_pos (by simpa using hid)]
      have hnil : as.filter (fun x => x.id == id) = [] := by
        rw [List.filter_eq_nil_iff]
        intro x hx hxid
        have : x.id ∈ as.map Reader.id := List.mem_map_of_mem Reader.id hx
        rw [show x.id = r.id by simpa [hid] using hxid] at this
        exact hn.1 this
      rw [hnil]
    · have ha : a.id ≠ id := by
        intro haid
        have hmm : r.id ∈ as.map Reader.id := List.mem_map_of_mem Reader.id hmem
        rw [hid, ← haid] at hmm
        exact hn.1 hmm
      rw [List.filter_cons_of_neg (by simpa using ha)]
      exact ih hn.2 hmem

/-- The rows a delete keeps and the rows it matches partition the store. -/
theorem length_filter_ne_add (l : List Reader) (id : Nat) :
    (l.filter (fun r => r.id != id)).length +
      (l.filter (fun r => r.id == id)).length = l.length := by
  induction l with
  | nil => rfl
  | cons a as ih =>
    by_cases h : a.id = id
    · have h1 : (a.id != id) = false := by simp [h]
      have h2 : (a.id == id) = true := by simpa using h
      simp only [List.filter_cons, h1, h2, if_true, Bool.false_eq_true,
        if_false, List.length_cons]
      omega
    · have h1 : (a.id != id) = true := by simp [h]
      have h2 : (a.id == id) = false := by simpa using h
      simp only [List.filter_cons, h1, h2, if_true, Bool.false_eq_true,
        if_false, List.length_cons]
      omega

/-- After a delete, a point lookup on the deleted id reports absent. -/
theorem Store.fetchById_deleteById_none (s : Store) (id : Nat) :
    (s.deleteById id).2.fetchById id = none := by
  show (s.records.filter (fun r => r.id != id)).find?
      (fun r => r.id == id) = none
  rw [List.find?_eq_none]
  intro x hx
  have hne := (List.mem_filter.mp hx).2
  simpa using hne

/-- **C8**: deleting a present id from a well-formed store answers 204, a
subsequent point lookup on that id is absent, exactly one record is gone,
every other record survives, and nothing new appears. -/
theorem delete_existing_removes_exactly_one (s : Store) (id : Nat)
    (r : Reader) (hwf : s.WF) (h : s.fetchById id = some r) :
    (ReadersController.deleteReader s id).1.status = 204 ∧
    (ReadersController.deleteReader s id).2.fetchById id = none ∧
    (ReadersController.deleteReader s id).2.records.length + 1 =
      s.records.length ∧
    (∀ x ∈ s.records, x ≠ r →
      x ∈ (ReadersController.deleteReader s id).2.records) ∧
    (∀ x ∈ (ReadersController.deleteReader s id).2.records,
      x ∈ s.records ∧ x ≠ r) := by
  obtain ⟨hmem, hid⟩ := Store.fetchById_some_mem h
  have hc : (s.deleteById id).1 ≠ 0 := Store.count_ne_zero_of_mem hmem hid
  have hsingle : s.records.filter (fun x => x.id == id) = [r] :=
    filter_eq_singleton_of_nodup s.records id r hwf.2 hmem hid
  have hstore : (ReadersController.deleteReader s id).2 = (s.deleteById id).2 :=
    ReadersController.deleteReader_store s id
  refine ⟨?_, ?_, ?_, ?_, ?_⟩
  · rw [ReadersController.deleteReader_def, if_neg hc]
  · rw [hstore]
    exact Store.fetchById_deleteById_none s id
  · rw [hstore]
    show (s.records.filter (fun x => x.id != id)).length + 1 = s.records.length
    have hpart := length_filter_ne_add s.records id
    rw [hsingle] at hpart
    simpa using hpart
  · intro x hx hxr
    rw [hstore]
    show x ∈ s.records.filter (fun y => y.id != id)
    refine List.mem_filter.mpr ⟨hx, ?_⟩
    have hxid : x.id ≠ id := by
      intro hxid
      have hxin : x ∈ s.records.filter (fun y => y.id == id) :=
        List.mem_filter.mpr ⟨hx, by simpa using hxid⟩
      rw [hsingle] at hxin
      exact hxr (List.mem_singleton.mp hxin)
    simpa using hxid
  · intro x hx
    rw [hstore] at hx
    have hx' := List.mem_filter.mp hx
    refine ⟨hx'.1, ?_⟩
    intro hxr
    subst hxr
    have hne : x.id ≠ id := by simpa using hx'.2
    exact hne hid

/-- Witness for C8: deleting Mia from the sample store gives 204, her id no
longer resolves, one record is gone, and Bilbo survives. -/
theorem delete_existing_removes_exactly_one_witness :
    (ReadersController.deleteReader sampleStore 1).1.status = 204 ∧
    (ReadersController.deleteReader sampleStore 1).2.fetchById 1 = none ∧
    (ReadersController.deleteReader sampleStore 1).2.records.length + 1 =
      sampleStore.records.length ∧
    bilboReader ∈ (ReadersController.deleteReader sampleStore 1).2.records :=
  have h := delete_existing_removes_exactly_one sampleStore 1 miaReader
    (by decide) (by decide)
  ⟨h.1, h.2.1, h.2.2.1, h.2.2.2.1 bilboReader (by decide) (by decide)⟩

/-- The fresh store is well-formed. -/
theorem emptyStore_WF : emptyStore.WF := by decide

/-- The sample store is well-formed. -/
theorem sampleStore_WF : sampleStore.WF := by decide

/-- `insert` preserves well-formedness: the generated id is fresh and the
counter moves past it. -/
theorem Store.WF_insert (s : Store) (f : ReaderFields) (h : s.WF) :
    (s.insert f).2.WF := by
  obtain ⟨hlt, hnd⟩ := h
  constructor
  · intro r hr
    show r.id < s.nextId + 1
    rcases List.mem_append.mp hr with h1 | h1
    · exact Nat.lt_succ_of_lt (hlt r h1)
    · rw [List.mem_singleton.mp h1]
      exact Nat.lt_succ_self _
  · show ((s.records ++ [(⟨s.nextId, f.name, f.email⟩ : Reader)]).map
        Reader.id).Nodup
    rw [List.map_append, List.map_singleton]
    refine List.Nodup.append hnd (List.nodup_singleton _) ?_
    intro x hx hx2
    obtain ⟨r, hr, rfl⟩ := List.mem_map.mp hx
    rw [List.mem_singleton] at hx2
    exact absurd (hx2 ▸ hlt r hr) (lt_irrefl _)

/-- `updateById` preserves well-formedness: a partial update never touches
an id. -/
theorem Store.WF_updateById (s : Store) (id : Nat) (f : ReaderFields)
    (h : s.WF) : (s.updateById id f).2.WF := by
  obtain ⟨hlt, hnd⟩ := h
  have hids : (s.updateById id f).2.records.map Reader.id =
      s.records.map Reader.id := by
    show (s.records.map
        (fun r => if r.id == id then applyFields f r else r)).map Reader.id =
      s.records.map Reader.id
    rw [List.map_map]
    apply List.map_congr_left
    intro r hr
    by_cases hc : (r.id == id) = true <;> simp [Function.comp, hc, applyFields]
  constructor
  · intro r hr
    show r.id < s.nextId
    have hmm : r.id ∈ (s.updateById id f).2.records.map Reader.id :=
      List.mem_map_of_mem Reader.id hr
    rw [hids] at hmm
    obtain ⟨x, hx, hxid⟩ := List.mem_map.mp hmm
    exact hxid ▸ hlt x hx
  · show ((s.updateById id f).2.records.map Reader.id).Nodup
    rw [hids]
    exact hnd

/-- `deleteById` preserves well-formedness: it only drops rows. -/
theorem Store.WF_deleteById (s : Store) (id : Nat) (h : s.WF) :
    (s.deleteById id).2.WF := by
  obtain ⟨hlt, hnd⟩ := h
  constructor
  · intro r hr
    show r.id < s.nextId
    exact hlt r (List.mem_of_mem_filter hr)
  · show ((s.records.filter (fun r => r.id != id)).map Reader.id).Nodup
    exact List.Nodup.sublist ((List.filter_sublist _).map Reader.id) hnd

/-- Counterexample to **C6** as stated over every store state: inserting a
batch of one record into the sample store (which already holds two) makes
list return three records, not exactly one. -/
theorem list_after_inserts_counterexample :
    (ReadersController.list (insertAll sampleStore
        [⟨some "Rand", some "rand@tworivers.com"⟩])).1.status = 200 ∧
    (insertAll sampleStore
        [⟨some "Rand", some "rand@tworivers.com"⟩]).records.length = 3 ∧
    ¬(insertAll sampleStore
        [⟨some "Rand", some "rand@tworivers.com"⟩]).records.length = 1 :=
  ⟨rfl, rfl, by decide⟩
